import Mathlib

/-!
Verification development for the `mould` form compiler (`src/main.go`).

The Go program is embedded shallowly: Go strings are modelled as `List Char`
(the inputs of interest are ASCII, where Go's byte indexing and rune
indexing coincide), fallible code (Go runtime panics) is modelled with
`Except GoAbort`, and the fixed `html/template` literals are modelled as
explicit string splices.
-/

namespace Mould

/-- A Go string, modelled as a list of characters. -/
abbrev Str := List Char

/-- Conversion from a Lean string literal to the `Str` representation. -/
def strC (s : String) : Str := s.data

/-- A Go runtime panic class reachable in `main.go`:
`sliceOutOfRange` models a slice-bounds panic (e.g. `line[0:-1]`),
`indexOutOfRange` models an index-out-of-range panic (e.g. `matches[1]`
on a `nil` slice, or `parts[1]` on a 1-element slice). A panic aborts the
whole program, which the embedding models with `Except.error`. -/
inductive GoAbort where
  | sliceOutOfRange
  | indexOutOfRange
deriving DecidableEq, Repr

/-- Go `unicode.IsSpace` on the ASCII / Latin-1 range, as used by
`strings.TrimSpace`: space, `\t`, `\n`, `\v`, `\f`, `\r`, NEL (U+0085)
and NBSP (U+00A0). -/
def goIsSpace (c : Char) : Bool :=
  c = ' ' || c = '\t' || c = '\n' || c = Char.ofNat 11 || c = Char.ofNat 12 ||
  c = '\r' || c = Char.ofNat 0x85 || c = Char.ofNat 0xA0

/-- Go `strings.TrimSpace`: drop leading and trailing whitespace. -/
def trimSpace (s : Str) : Str :=
  ((s.dropWhile goIsSpace).reverse.dropWhile goIsSpace).reverse

/-- Index of the first occurrence of a character, modelling
`strings.Index` (which returns `-1`, modelled as `none`, when absent). -/
def goIndexOf (c : Char) : Str → Option Nat
  | [] => none
  | x :: xs => if x = c then some 0 else (goIndexOf c xs).map (· + 1)

/-- Go `strings.Split` with a one-character separator. On the empty
string it returns one empty piece, as `strings.Split` does. -/
def splitOnChar (sep : Char) : Str → List Str
  | [] => [[]]
  | c :: cs =>
    match splitOnChar sep cs with
    | h :: t => if c = sep then [] :: h :: t else (c :: h) :: t
    | [] => if c = sep then [[], []] else [[c]]

/-- Go `strings.ToLower` on ASCII letters. -/
def goToLower (s : Str) : Str :=
  s.map fun c => if 'A' ≤ c && c ≤ 'Z' then Char.ofNat (c.toNat + 32) else c

/-- ASCII upper-casing of one character, modelling `unicode.ToTitle`
on the ASCII letters that occur in this program's identifiers. -/
def goToUpper (c : Char) : Char :=
  if 'a' ≤ c && c ≤ 'z' then Char.ofNat (c.toNat - 32) else c

/-- Go `strings.isSeparator` (the word-boundary test used by
`strings.Title`) on the ASCII range: alphanumerics and `_` are not
separators, everything else is. -/
def goIsSeparator (c : Char) : Bool :=
  !(('0' ≤ c && c ≤ '9') || ('a' ≤ c && c ≤ 'z') || ('A' ≤ c && c ≤ 'Z') || c = '_')

/-- Worker for `goTitle`: `prev` is the previous rune seen
(initially a space, as in Go's `strings.Title`). -/
def goTitleAux (prev : Char) : Str → Str
  | [] => []
  | c :: cs => (if goIsSeparator prev then goToUpper c else c) :: goTitleAux c cs

/-- Go `strings.Title`: upper-case every rune that follows a separator. -/
def goTitle (s : Str) : Str := goTitleAux ' ' s

/-- Go `strings.ReplaceAll` where the pattern is a single character
(the only form used in `main.go`: `"-"` to `" "`, and `" "` to `""`). -/
def replaceAllChar (old : Char) (new : Str) (s : Str) : Str :=
  s.flatMap fun c => if c = old then new else [c]

/-- Boolean `needle` is-a-leading-segment-of `hay` test. -/
def leadsWith : Str → Str → Bool
  | [], _ => true
  | _ :: _, [] => false
  | a :: as, b :: bs => a = b && leadsWith as bs

/-- Boolean substring test: `hasSub needle hay` holds when `needle`
occurs contiguously inside `hay`. -/
def hasSub (needle : Str) : Str → Bool
  | [] => leadsWith needle []
  | c :: rest => leadsWith needle (c :: rest) || hasSub needle rest

/-! ### The directive record (`genValue`, `main.go` lines 50-57)

The Go struct also declares an `options map[string]string` field, but no
statement in `main.go` ever writes or reads it, so it is omitted here. -/

/-- One parsed directive (`genValue` in `main.go`). -/
structure GenValue where
  element : Str
  title : Str
  value : Str
  key : Str
  required : Bool
deriving DecidableEq, Repr

/-! ### The line-parser regular expression

`parseFormat` matches the left-hand side of each line against the Go
regexp `(form-\w+)|([!]?)(\S*)(\[.*\])([#]\S+)?` with
`FindStringSubmatch`, which uses leftmost-first (backtracking-priority)
semantics: starting positions are tried left to right, and at each
position the first alternative is tried before the second, `?` prefers
to consume, and `*` is greedy. The functions below implement exactly
that search for this fixed pattern. -/

/-- RE2 `\s` (note: unlike `unicode.IsSpace` it has no `\v`). -/
def reIsSpace (c : Char) : Bool :=
  c = '\t' || c = '\n' || c = Char.ofNat 12 || c = '\r' || c = ' '

/-- RE2 `\w`: `[0-9A-Za-z_]`. -/
def reIsWord (c : Char) : Bool :=
  ('0' ≤ c && c ≤ '9') || ('a' ≤ c && c ≤ 'z') || ('A' ≤ c && c ≤ 'Z') || c = '_'

/-- The five capture groups of the pattern; an unparticipating group is
the empty string, as Go's `FindStringSubmatch` reports it. -/
structure ReGroups where
  g1 : Str
  g2 : Str
  g3 : Str
  g4 : Str
  g5 : Str
deriving DecidableEq, Repr

/-- Try alternative 1, `form-\w+`, anchored at the head of `s`:
it needs the literal `form-` followed by at least one word character,
and `+` greedily takes the whole word-character run. -/
def tryAlt1 (s : Str) : Option ReGroups :=
  match s with
  | 'f' :: 'o' :: 'r' :: 'm' :: '-' :: rest =>
    let w := rest.takeWhile reIsWord
    if w = [] then none else some ⟨strC "form-" ++ w, [], [], [], []⟩
  | _ => none

/-- Try `\[.*\]` anchored at the head of `s`. `.` excludes newline, and
the greedy `.*` backtracks to the last `]` reachable without crossing a
newline. Returns the bracketed group (brackets included) and the rest. -/
def tryBracket (s : Str) : Option (Str × Str) :=
  match s with
  | '[' :: rest =>
    let pre := rest.takeWhile fun c => c ≠ '\n'
    match goIndexOf ']' pre.reverse with
    | none => none
    | some i =>
      let j := pre.length - 1 - i
      some ('[' :: pre.take (j + 1), rest.drop (j + 1))
  | _ => none

/-- Backtracking search for `(\S*)(\[.*\])` anchored at the head of
`s`: the greedy `\S*` first takes `j` characters (at most the length of
the leading non-space run) and shrinks until the bracket group matches.
Returns `(g3, g4, rest)`. -/
def searchBracket (s : Str) : Nat → Option (Str × Str × Str)
  | 0 =>
    match tryBracket s with
    | some (g4, rem) => some ([], g4, rem)
    | none => none
  | j + 1 =>
    match tryBracket (s.drop (j + 1)) with
    | some (g4, rem) => some (s.take (j + 1), g4, rem)
    | none => searchBracket s j

/-- The optional trailing group `([#]\S+)?`: greedy, so it participates
whenever a `#` followed by at least one non-space character is next. -/
def keyOpt (rem : Str) : Str :=
  match rem with
  | '#' :: r =>
    let w := r.takeWhile fun c => !reIsSpace c
    if w = [] then [] else '#' :: w
  | _ => []

/-- Alternative 2 without its `[!]?` prefix: `(\S*)(\[.*\])([#]\S+)?`
anchored at the head of `s`. -/
def tryAlt2Core (s : Str) : Option (Str × Str × Str) :=
  match searchBracket s (s.takeWhile fun c => !reIsSpace c).length with
  | some (g3, g4, rem) => some (g3, g4, keyOpt rem)
  | none => none

/-- Alternative 2, `([!]?)(\S*)(\[.*\])([#]\S+)?`, anchored at the head
of `s`: the greedy `[!]?` first consumes a leading `!` and falls back to
the empty match (where `\S*` may then consume the `!` itself). -/
def tryAlt2 (s : Str) : Option ReGroups :=
  match s with
  | '!' :: rest =>
    match tryAlt2Core rest with
    | some (g3, g4, g5) => some ⟨[], ['!'], g3, g4, g5⟩
    | none =>
      match tryAlt2Core s with
      | some (g3, g4, g5) => some ⟨[], [], g3, g4, g5⟩
      | none => none
  | _ =>
    match tryAlt2Core s with
    | some (g3, g4, g5) => some ⟨[], [], g3, g4, g5⟩
    | none => none

/-- `FindStringSubmatch` for the fixed pattern: scan start positions
left to right; at each, try alternative 1 then alternative 2. `none`
models the `nil` result for a string the pattern does not match. -/
def reFind : Str → Option ReGroups
  | [] => none
  | c :: rest =>
    match tryAlt1 (c :: rest) with
    | some g => some g
    | none =>
      match tryAlt2 (c :: rest) with
      | some g => some g
      | none => reFind rest

/-! ### The line parser (`parseFormat`, `main.go` lines 95-126) -/

/-- The part of the per-line work after the `=` split (`main.go` lines
106-122): match the left side against the pattern and build the
directive. A `nil` match makes the unguarded `matches[1]` access on
line 110 panic with index-out-of-range. -/
def parseLeft (left value : Str) : Except GoAbort GenValue :=
  match reFind left with
  | none => .error .indexOutOfRange
  | some m =>
    let required := m.g2 = strC "!"
    let element :=
      if m.g1 ≠ [] then trimSpace m.g1
      else if m.g3 ≠ [] then trimSpace m.g3
      else []
    let title := if m.g4 ≠ [] then (m.g4.drop 1).dropLast else []
    let key := if m.g5 ≠ [] then trimSpace (m.g5.drop 1) else []
    .ok ⟨element, title, value, key, required⟩

/-- One iteration of the scanner loop (`main.go` lines 100-123):
`strings.Index(line, "=")` is `-1` on a line without `=`, and the slice
`line[0:-1]` on line 102 then panics with slice-out-of-range. -/
def parseLine (line : Str) : Except GoAbort GenValue :=
  match goIndexOf '=' line with
  | none => .error .sliceOutOfRange
  | some i => parseLeft (trimSpace (line.take i)) (trimSpace (line.drop (i + 1)))

/-- Drop one trailing `\r`, as `bufio`'s `dropCR` does. -/
def dropCR (l : Str) : Str :=
  if l.getLast? = some '\r' then l.dropLast else l

/-- The lines produced by `bufio.Scanner` with `ScanLines`: split on
`\n`, dropping a final empty token produced by a trailing newline, and
strip one trailing `\r` from each line. -/
def goLines (s : Str) : List Str :=
  if s = [] then []
  else
    let parts := splitOnChar '\n' s
    (if s.getLast? = some '\n' then parts.dropLast else parts).map dropCR

/-- Effectful map that stops at the first panic, modelling a Go loop
whose body can panic. -/
def mapExcept (f : α → Except GoAbort β) : List α → Except GoAbort (List β)
  | [] => .ok []
  | a :: rest =>
    match f a with
    | .error e => .error e
    | .ok b =>
      match mapExcept f rest with
      | .error e => .error e
      | .ok bs => .ok (b :: bs)

/-- `parseFormat` (`main.go` lines 95-126): scan the input line by line
and collect one `genValue` per line; any panic aborts the program. -/
def parseFormat (format : Str) : Except GoAbort (List GenValue) :=
  mapExcept parseLine (goLines format)

/-! ### The key/title deriver (`formatKeyAndTitle`, `main.go` lines 156-164) -/

/-- `formatKeyAndTitle`: with no explicit key, the key is the lowercased
title and the title is `strings.Title` of the title with spaces removed;
with an explicit key, the key is used verbatim and the title is
`strings.Title` of the key with `-` first replaced by a space, then all
spaces removed. -/
def formatKeyAndTitle (v : GenValue) : Str × Str :=
  let key := goToLower v.title
  let title := replaceAllChar ' ' [] (goTitle v.title)
  if v.key.length > 0 then
    (v.key, replaceAllChar ' ' [] (goTitle (replaceAllChar '-' (strC " ") v.key)))
  else
    (key, title)

/-! ### The document assembler (`main`, `main.go` lines 167-343)

The `jennifer` code values are modelled by what determines them: a
`contentBits` entry is the generated field's identifier; an `answer`
entry `Id(title).String().Tag(jsonTag(key))` and a `resParse` entry
`answer.<title> = req.PostFormValue(<key>)` are both determined by the
`(title, key)` pair, modelled as `FieldEntry`. -/

/-- The `(title, key)` data of one generated answer field or one
generated extraction statement. -/
structure FieldEntry where
  title : Str
  key : Str
deriving DecidableEq, Repr

/-- The three theme colour strings (`Theme`, `main.go` lines 59-61);
each is empty until a corresponding directive sets it. -/
structure Theme where
  background : Str
  title : Str
  body : Str
deriving DecidableEq, Repr

/-- State mutated by the metadata pass (`main.go` lines 194-221),
together with the initial values set on lines 167-172. -/
structure MetaAcc where
  htmlList : List Str
  contentBits : List Str
  pageTitle : Str
  theme : Theme
  setPassword : Str
  setUser : Str
deriving DecidableEq, Repr

/-- One iteration of the metadata `switch` (`main.go` lines 195-220). -/
def metaStep (st : MetaAcc) (input : GenValue) : MetaAcc :=
  if input.element = strC "form-title" then
    { st with contentBits := st.contentBits ++ [strC "Title"],
              htmlList := st.htmlList ++ [strC "<h1>" ++ input.value ++ strC "</h1>"],
              pageTitle := input.value }
  else if input.element = strC "form-desc" then
    { st with contentBits := st.contentBits ++ [strC "Description"],
              htmlList := st.htmlList ++ [strC "<p>" ++ input.value ++ strC "</p>"] }
  else if input.element = strC "form-image" then
    { st with contentBits := st.contentBits ++ [strC "Image"],
              htmlList := st.htmlList ++ [strC "<img src=\"" ++ input.value ++ strC "\">"] }
  else if input.element = strC "form-password" then
    { st with setPassword := input.value,
              contentBits := st.contentBits ++ [strC "Password"] }
  else if input.element = strC "form-user" then
    { st with setUser := input.value,
              contentBits := st.contentBits ++ [strC "User"] }
  else if input.element = strC "form-bg" then
    { st with theme := { st.theme with background := input.value } }
  else if input.element = strC "form-titlecolor" then
    { st with theme := { st.theme with title := input.value } }
  else if input.element = strC "form-fg" then
    { st with theme := { st.theme with body := input.value } }
  else st

/-- The metadata pass: fold `metaStep` over the directives. -/
def metaPassFrom (st : MetaAcc) : List GenValue → MetaAcc
  | [] => st
  | v :: rest => metaPassFrom (metaStep st v) rest

/-- Initial assembler state: everything empty except the default user
`mouldy` (`main.go` line 171). -/
def metaInit : MetaAcc :=
  ⟨[], [], [], ⟨[], [], []⟩, [], strC "mouldy"⟩

/-- The whole metadata pass over the parsed directives. -/
def metaPass (values : List GenValue) : MetaAcc := metaPassFrom metaInit values

/-- The `required` attribute string (`main.go` lines 225-228): the Go
`var required string` stays empty unless the flag is set. -/
def requiredStr (b : Bool) : Str := if b then strC "required" else []

/-- The `attr="val"` accumulation loop of the `number` and `range`
cases (`main.go` lines 271-275 and 287-291): split the value on commas,
trim each pair, split it on `=`, and append `parts[0]="parts[1]" ` to
the accumulator; a pair with no `=` makes `parts[1]` panic. -/
def buildOptionsFrom (options : Str) : List Str → Except GoAbort Str
  | [] => .ok options
  | optionPair :: rest =>
    match splitOnChar '=' (trimSpace optionPair) with
    | p0 :: p1 :: _ =>
      buildOptionsFrom (options ++ p0 ++ strC "=\"" ++ p1 ++ strC "\" ") rest
    | _ => .error .indexOutOfRange

/-- The full attribute string built from a `number`/`range` value. -/
def buildOptions (value : Str) : Except GoAbort Str :=
  buildOptionsFrom [] (splitOnChar ',' value)

/-- State mutated by the field pass (`main.go` lines 224-320): the same
`htmlList` continued from the metadata pass, plus the `answer` and
`resParse` code lists. -/
structure GenAcc where
  htmlList : List Str
  answer : List FieldEntry
  resParse : List FieldEntry
deriving DecidableEq, Repr

/-- One iteration of the field-pass `switch` (`main.go` lines 229-319),
one branch per element kind, translated format string by format string.
Unrecognized elements (including all metadata kinds) fall through to the
default and leave the state unchanged. -/
def fieldStep (st : GenAcc) (input : GenValue) : Except GoAbort GenAcc :=
  if input.element = strC "textarea" then
    let kt := formatKeyAndTitle input
    .ok { htmlList := st.htmlList ++
            [strC "<div>",
             strC "<label for=\"" ++ kt.1 ++ strC "\">" ++ kt.2 ++ strC "</label>",
             strC "<textarea " ++ requiredStr input.required ++ strC " placeholder=\"" ++
               input.value ++ strC "\" name=\"" ++ kt.1 ++ strC "\"></textarea>",
             strC "</div>"],
          answer := st.answer ++ [⟨kt.2, kt.1⟩],
          resParse := st.resParse ++ [⟨kt.2, kt.1⟩] }
  else if input.element = strC "input" then
    let kt := formatKeyAndTitle input
    .ok { htmlList := st.htmlList ++
            [strC "<div>",
             strC "<label for=\"" ++ kt.1 ++ strC "\">" ++ input.title ++ strC "</label>",
             strC "<input type=\"text\" " ++ requiredStr input.required ++
               strC " placeholder=\"" ++ input.value ++ strC "\" name=\"" ++ kt.1 ++ strC "\"/>",
             strC "</div>"],
          answer := st.answer ++ [⟨kt.2, kt.1⟩],
          resParse := st.resParse ++ [⟨kt.2, kt.1⟩] }
  else if input.element = strC "hidden" then
    let kt := formatKeyAndTitle input
    .ok { htmlList := st.htmlList ++
            [strC "<div>",
             strC "<input type=\"hidden\" " ++ requiredStr input.required ++
               strC " value=\"" ++ input.value ++ strC "\" name=\"" ++ kt.1 ++ strC "\"/>",
             strC "</div>"],
          answer := st.answer ++ [⟨kt.2, kt.1⟩],
          resParse := st.resParse ++ [⟨kt.2, kt.1⟩] }
  else if input.element = strC "form-paragraph" then
    .ok { st with htmlList := st.htmlList ++ [strC "<p>" ++ input.value ++ strC "</p>"] }
  else if input.element = strC "email" then
    let kt := formatKeyAndTitle input
    .ok { htmlList := st.htmlList ++
            [strC "<div>",
             strC "<label for=\"" ++ kt.1 ++ strC "\">" ++ input.title ++ strC "</label>",
             strC "<input type=\"email\" " ++ requiredStr input.required ++
               strC " placeholder=\"email@provider.tld\" pattern=\"" ++ input.value ++
               strC "\", name=\"" ++ kt.1 ++ strC "\"/>",
             strC "</div>"],
          answer := st.answer ++ [⟨kt.2, kt.1⟩],
          resParse := st.resParse ++ [⟨kt.2, kt.1⟩] }
  else if input.element = strC "number" then
    match buildOptions input.value with
    | .error e => .error e
    | .ok options =>
      let kt := formatKeyAndTitle input
      .ok { htmlList := st.htmlList ++
              [strC "<div>",
               strC "<label for=\"" ++ kt.1 ++ strC "\">" ++ kt.2 ++ strC "</label>",
               strC "<input type=\"number\" " ++ requiredStr input.required ++ strC " " ++
                 options ++ strC " name=\"" ++ kt.1 ++ strC "\"/>",
               strC "</div>"],
            answer := st.answer ++ [⟨kt.2, kt.1⟩],
            resParse := st.resParse ++ [⟨kt.2, kt.1⟩] }
  else if input.element = strC "range" then
    match buildOptions input.value with
    | .error e => .error e
    | .ok options =>
      let kt := formatKeyAndTitle input
      .ok { htmlList := st.htmlList ++
              [strC "<div>",
               strC "<label for=\"" ++ kt.1 ++ strC "\">" ++ kt.2 ++ strC "</label>",
               strC "<input type=\"range\" " ++ requiredStr input.required ++ strC " " ++
                 options ++ strC " name=\"" ++ kt.1 ++ strC "\"/>",
               strC "</div>"],
            answer := st.answer ++ [⟨kt.2, kt.1⟩],
            resParse := st.resParse ++ [⟨kt.2, kt.1⟩] }
  else if input.element = strC "radio" then
    let kt := formatKeyAndTitle input
    .ok { htmlList := st.htmlList ++
            [strC "<div>", strC "<span>" ++ input.title ++ strC "</span>"] ++
            ((splitOnChar ',' input.value).flatMap fun val =>
              let o := trimSpace val
              let radioValue := goToLower o
              let radioId := kt.1 ++ strC "-option-" ++ radioValue
              [strC "<span>",
               strC "<input type=\"radio\" id=\"" ++ radioId ++ strC "\" value=\"" ++
                 radioValue ++ strC "\" name=\"" ++ kt.1 ++ strC "\"/>",
               strC "<label for=\"" ++ radioId ++ strC "\">" ++ o ++ strC "</label>",
               strC "</span>"]) ++
            [strC "</div>"],
          answer := st.answer ++ [⟨kt.2, kt.1⟩],
          resParse := st.resParse ++ [⟨kt.2, kt.1⟩] }
  else .ok st

/-- The field pass: iterate `fieldStep`; a panic aborts the program. -/
def fieldPass (st : GenAcc) : List GenValue → Except GoAbort GenAcc
  | [] => .ok st
  | v :: rest =>
    match fieldStep st v with
    | .error e => .error e
    | .ok st' => fieldPass st' rest

/-- The structural fragment opened before the field pass
(`main.go` line 223). -/
def formOpenTag : Str := strC "<form action=\"/\" method=\"post\">"

/-- The submit-button fragment appended after the field pass
(`main.go` line 322). -/
def submitFrag : Str := strC "<div><button type=\"submit\">Submit</button></div>"

/-! ### Stylesheet and page rendering (`main.go` lines 356-397)

Only the default path is modelled: no `--stylesheet` file was given, so
the built-in `stylesheetTemplate` is used. The fixed templates are
embedded as explicit splices of their literal text; `html/template`
leaves a `template.HTML` value unescaped, filters a CSS value (identity
on the values at issue here, in particular on the empty string), and
HTML-escapes the plain-string page title. -/

/-- The three stylesheet substitution values (`StyleData`,
`main.go` lines 63-65); the zero value of `template.HTML` is the empty
string. -/
structure StyleData where
  background : Str
  titleColor : Str
  body : Str
deriving DecidableEq, Repr

/-- The three guarded assignments of `main.go` lines 360-369: each
field is set from the theme only when the theme string is non-empty, and
otherwise keeps its zero value (which is also empty). -/
def styleDataOf (theme : Theme) : StyleData :=
  let s1 : StyleData := ⟨[], [], []⟩
  let s2 := if theme.background ≠ [] then { s1 with background := theme.background } else s1
  let s3 := if theme.body ≠ [] then { s2 with body := theme.body } else s2
  if theme.title ≠ [] then { s3 with titleColor := theme.title } else s3

/-- The built-in `stylesheetTemplate` (`main.go` lines 72-93) rendered
with a `StyleData`: the literal text with the three `Background`,
`Body` and `TitleColor` actions replaced by the field values. -/
def renderStylesheet (sd : StyleData) : Str :=
  strC "<style>\n\t\thtml \x7b\n\t\t\tbackground: " ++ sd.background ++
  strC ";\n\t\t\tcolor: " ++ sd.body ++
  strC ";\n\t\t\tpadding-left: 2rem;\n\t\t\tpadding-right: 2rem;\n\t\t\tpadding-top: 1rem;\n\t\t\x7d\n\t\th1 \x7b\n\t\t\tcolor: " ++
  sd.titleColor ++
  strC ";\n\t\t\x7d\n\t\t* \x7b\n\t\t\tpadding: 0;\n\t\t\tmargin-bottom: 0.5rem;\n\t\t\x7d\n\t\tdiv \x7b\n\t\t\tdisplay: grid;\n\t\t\tmax-width: 600px;\n\t\t\talign-items: center;\n\t\t\x7d\n</style>\n"

/-- `html/template` escaping of one character in HTML text context. -/
def htmlEscapeChar (c : Char) : Str :=
  if c = '<' then strC "&lt;"
  else if c = '>' then strC "&gt;"
  else if c = '&' then strC "&amp;"
  else if c = '"' then strC "&#34;"
  else if c = Char.ofNat 39 then strC "&#39;"
  else [c]

/-- `html/template` escaping of a string in HTML text context, applied
to the plain-string `Title` field. -/
def htmlEscape (s : Str) : Str := s.flatMap htmlEscapeChar

/-- `htmlTemplate` (`main.go` lines 128-137) with `%SENTINEL%` replaced
by the rendered stylesheet (line 388) and then executed with the
`TemplateData` (line 393): `Title` is escaped, `Content` is
`template.HTML` and is spliced unescaped. -/
def renderIndexDoc (style pageTitle content : Str) : Str :=
  strC "<!DOCTYPE html>\n<html>\n\t<head>\n\t\t<title>" ++ htmlEscape pageTitle ++
  strC "</title>\n\t\t" ++ style ++
  strC "\n\t</head>\n\t<body>\n\t" ++ content ++
  strC "\n\t</body>\n</html>"

/-- `strings.Join(htmlList, "\n")` (`main.go` line 358). -/
def joinLines : List Str → Str
  | [] => []
  | [l] => l
  | l :: rest => l ++ strC "\n" ++ joinLines rest

/-- Everything `main` computes from the parsed directives on the
default path, up to the bytes written to `index-template.html`. -/
structure CompileOut where
  htmlList : List Str
  answer : List FieldEntry
  resParse : List FieldEntry
  contentBits : List Str
  pageTitle : Str
  theme : Theme
  styleRendered : Str
  indexBytes : Str
deriving Repr

/-- The compile pipeline of `main` after flag handling (`main.go`
lines 182-397) on the default path: parse the format, run the metadata
pass, open the form, run the field pass, close the form, render the
stylesheet into a fresh `bytes.Buffer`, splice the buffer contents at
the sentinel, then execute the page template into the *same* buffer
(`t.Execute(&buf, data)` on line 393 appends, the buffer is never
reset), so the bytes written to `index-template.html` (line 394) are
the stylesheet followed by the rendered document. -/
def compile (format : Str) : Except GoAbort CompileOut :=
  match parseFormat format with
  | .error e => .error e
  | .ok values =>
    let m := metaPass values
    match fieldPass ⟨m.htmlList ++ [formOpenTag], [], []⟩ values with
    | .error e => .error e
    | .ok g =>
      let htmlList := g.htmlList ++ [submitFrag, strC "</form>"]
      let buf1 := renderStylesheet (styleDataOf m.theme)
      let doc := renderIndexDoc buf1 m.pageTitle (joinLines htmlList)
      .ok ⟨htmlList, g.answer, g.resParse, m.contentBits, m.pageTitle, m.theme,
           buf1, buf1 ++ doc⟩

/-! ### Flag handling (`main.go` lines 173-181) -/

/-- The observable outcome of `main`: an early `os.Exit` with its code
and printed message, or a run of the compile pipeline on the input
file's contents. -/
inductive MainResult where
  | exited (code : Nat) (msg : Str)
  | ran (out : Except GoAbort CompileOut)

/-- `main`'s entry behaviour (`main.go` lines 178-181): with an empty
`--input` flag it prints the usage message and calls `os.Exit(0)` -
exit code zero - before reading or parsing anything; otherwise it runs
the pipeline on the file contents. -/
def runMain (formatFp : Str) (fileContents : Str) : MainResult :=
  if formatFp = [] then
    .exited 0 (strC "must pass --input <file containing form format>")
  else
    .ran (compile fileContents)

/-! ## Projection functions used by the theorems

Per-directive projections of the two assembler passes, each mirroring
one branch of the corresponding `switch`; the lemmas below prove that
the threaded folds factor through them. -/

/-- The page-body fragments one directive contributes during the
metadata pass (`main.go` lines 196-205): only `form-title`, `form-desc`
and `form-image` append to `htmlList` there. -/
def metaFragsOf (v : GenValue) : List Str :=
  if v.element = strC "form-title" then [strC "<h1>" ++ v.value ++ strC "</h1>"]
  else if v.element = strC "form-desc" then [strC "<p>" ++ v.value ++ strC "</p>"]
  else if v.element = strC "form-image" then [strC "<img src=\"" ++ v.value ++ strC "\">"]
  else []

/-- The `htmlList` fragments one directive contributes during the field
pass, branch by branch as in `fieldStep`. -/
def fieldFragsOf (input : GenValue) : Except GoAbort (List Str) :=
  if input.element = strC "textarea" then
    let kt := formatKeyAndTitle input
    .ok [strC "<div>",
         strC "<label for=\"" ++ kt.1 ++ strC "\">" ++ kt.2 ++ strC "</label>",
         strC "<textarea " ++ requiredStr input.required ++ strC " placeholder=\"" ++
           input.value ++ strC "\" name=\"" ++ kt.1 ++ strC "\"></textarea>",
         strC "</div>"]
  else if input.element = strC "input" then
    let kt := formatKeyAndTitle input
    .ok [strC "<div>",
         strC "<label for=\"" ++ kt.1 ++ strC "\">" ++ input.title ++ strC "</label>",
         strC "<input type=\"text\" " ++ requiredStr input.required ++
           strC " placeholder=\"" ++ input.value ++ strC "\" name=\"" ++ kt.1 ++ strC "\"/>",
         strC "</div>"]
  else if input.element = strC "hidden" then
    let kt := formatKeyAndTitle input
    .ok [strC "<div>",
         strC "<input type=\"hidden\" " ++ requiredStr input.required ++
           strC " value=\"" ++ input.value ++ strC "\" name=\"" ++ kt.1 ++ strC "\"/>",
         strC "</div>"]
  else if input.element = strC "form-paragraph" then
    .ok [strC "<p>" ++ input.value ++ strC "</p>"]
  else if input.element = strC "email" then
    let kt := formatKeyAndTitle input
    .ok [strC "<div>",
         strC "<label for=\"" ++ kt.1 ++ strC "\">" ++ input.title ++ strC "</label>",
         strC "<input type=\"email\" " ++ requiredStr input.required ++
           strC " placeholder=\"email@provider.tld\" pattern=\"" ++ input.value ++
           strC "\", name=\"" ++ kt.1 ++ strC "\"/>",
         strC "</div>"]
  else if input.element = strC "number" then
    match buildOptions input.value with
    | .error e => .error e
    | .ok options =>
      let kt := formatKeyAndTitle input
      .ok [strC "<div>",
           strC "<label for=\"" ++ kt.1 ++ strC "\">" ++ kt.2 ++ strC "</label>",
           strC "<input type=\"number\" " ++ requiredStr input.required ++ strC " " ++
             options ++ strC " name=\"" ++ kt.1 ++ strC "\"/>",
           strC "</div>"]
  else if input.element = strC "range" then
    match buildOptions input.value with
    | .error e => .error e
    | .ok options =>
      let kt := formatKeyAndTitle input
      .ok [strC "<div>",
           strC "<label for=\"" ++ kt.1 ++ strC "\">" ++ kt.2 ++ strC "</label>",
           strC "<input type=\"range\" " ++ requiredStr input.required ++ strC " " ++
             options ++ strC " name=\"" ++ kt.1 ++ strC "\"/>",
           strC "</div>"]
  else if input.element = strC "radio" then
    let kt := formatKeyAndTitle input
    .ok ([strC "<div>", strC "<span>" ++ input.title ++ strC "</span>"] ++
         ((splitOnChar ',' input.value).flatMap fun val =>
           let o := trimSpace val
           let radioValue := goToLower o
           let radioId := kt.1 ++ strC "-option-" ++ radioValue
           [strC "<span>",
            strC "<input type=\"radio\" id=\"" ++ radioId ++ strC "\" value=\"" ++
              radioValue ++ strC "\" name=\"" ++ kt.1 ++ strC "\"/>",
            strC "<label for=\"" ++ radioId ++ strC "\">" ++ o ++ strC "</label>",
            strC "</span>"]) ++
         [strC "</div>"])
  else .ok []

/-- The answer-field / extraction-statement entries one directive
contributes: exactly one `(title, key)` entry for each of the seven
field kinds, none otherwise (the branch order mirrors the `switch`). -/
def entryListOf (input : GenValue) : List FieldEntry :=
  if input.element = strC "textarea" then
    [⟨(formatKeyAndTitle input).2, (formatKeyAndTitle input).1⟩]
  else if input.element = strC "input" then
    [⟨(formatKeyAndTitle input).2, (formatKeyAndTitle input).1⟩]
  else if input.element = strC "hidden" then
    [⟨(formatKeyAndTitle input).2, (formatKeyAndTitle input).1⟩]
  else if input.element = strC "form-paragraph" then []
  else if input.element = strC "email" then
    [⟨(formatKeyAndTitle input).2, (formatKeyAndTitle input).1⟩]
  else if input.element = strC "number" then
    [⟨(formatKeyAndTitle input).2, (formatKeyAndTitle input).1⟩]
  else if input.element = strC "range" then
    [⟨(formatKeyAndTitle input).2, (formatKeyAndTitle input).1⟩]
  else if input.element = strC "radio" then
    [⟨(formatKeyAndTitle input).2, (formatKeyAndTitle input).1⟩]
  else []

/-! ## Helper lemmas -/

theorem leadsWith_append (a b : Str) : leadsWith a (a ++ b) = true := by
  induction a with
  | nil => rfl
  | cons c cs ih => simp [leadsWith, ih]

theorem hasSub_nil_needle (s : Str) : hasSub [] s = true := by
  cases s <;> simp [hasSub, leadsWith]

theorem hasSub_self_append (n suf : Str) : hasSub n (n ++ suf) = true := by
  cases n with
  | nil => simpa using hasSub_nil_needle suf
  | cons c cs =>
    have h := leadsWith_append (c :: cs) suf
    simp only [hasSub, Bool.or_eq_true]
    left
    simpa using h

theorem hasSub_of_parts (n pre suf : Str) : hasSub n (pre ++ n ++ suf) = true := by
  induction pre with
  | nil => simpa using hasSub_self_append n suf
  | cons c cs ih =>
    cases hn : n with
    | nil => simpa using hasSub_nil_needle (c :: (cs ++ [] ++ suf))
    | cons d ds =>
      rw [← hn]
      simpa [hasSub] using Or.inr (by simpa using ih)

theorem goIndexOf_no_hit (c : Char) (l : Str) (h : c ∉ l) : goIndexOf c l = none := by
  induction l with
  | nil => rfl
  | cons x xs ih =>
    have hx : ¬ x = c := fun he => h (he ▸ List.mem_cons_self x xs)
    have hxs : c ∉ xs := fun hm => h (List.mem_cons_of_mem x hm)
    simp [goIndexOf, hx, ih hxs]

theorem goIndexOf_append_hit (c : Char) (l r : Str) (h : c ∉ l) :
    goIndexOf c (l ++ c :: r) = some l.length := by
  induction l with
  | nil => simp [goIndexOf]
  | cons x xs ih =>
    have hx : ¬ x = c := fun he => h (he ▸ List.mem_cons_self x xs)
    have hxs : c ∉ xs := fun hm => h (List.mem_cons_of_mem x hm)
    simp [goIndexOf, hx, ih hxs]

/-! ## Claim C7: split at the first `=`, both sides trimmed -/

/-- Claim C7: for every line containing at least one `=` - written as
`l ++ '=' :: r` with no `=` in `l`, so the marked occurrence is the
first one - the line parser splits there and hands the matcher the
left-hand descriptor and the right-hand raw value, both trimmed of
surrounding whitespace. -/
theorem parseLine_splits_at_first_eq (l r : Str) (h : '=' ∉ l) :
    parseLine (l ++ '=' :: r) = parseLeft (trimSpace l) (trimSpace r) := by
  have hidx := goIndexOf_append_hit '=' l r h
  have htake : (l ++ '=' :: r).take l.length = l := List.take_left l ('=' :: r)
  have hdrop : (l ++ '=' :: r).drop (l.length + 1) = r := by
    have : l ++ '=' :: r = (l ++ ['=']) ++ r := by simp
    rw [this]
    have hlen : l.length + 1 = (l ++ ['=']).length := by simp
    rw [hlen]
    exact List.drop_left (l ++ ['=']) r
  simp [parseLine, hidx, htake, hdrop]

/-- Witness for C7 at the concrete line `input[Name]  =  hi there `. -/
theorem parseLine_splits_at_first_eq_witness :
    parseLine (strC "input[Name]  " ++ '=' :: strC "  hi there ") =
      parseLeft (trimSpace (strC "input[Name]  ")) (trimSpace (strC "  hi there ")) :=
  parseLine_splits_at_first_eq (strC "input[Name]  ") (strC "  hi there ") (by decide)

/-! ## Claim C1: blank and unmatched lines are not skipped - they panic -/

/-- Claim C1 (code-bug evidence): a blank line has no `=`, so the slice
`line[0:-1]` panics, and a line whose left side matches neither the
metadata shape nor the `element[title]` shape leaves `matches` nil, so
`matches[1]` panics; in both cases `parseFormat` aborts instead of
silently skipping the line. -/
theorem parseFormat_panics_on_blank_and_unmatched :
    parseFormat (strC "\n") = .error .sliceOutOfRange ∧
    parseFormat (strC "hello = world") = .error .indexOutOfRange := by
  constructor <;> rfl

/-! ## Claim C5: key/title derivation -/

/-- Claim C5: the key/title deriver lowercases the title as the key and
title-cases the title with spaces removed when no explicit key is given,
and uses the key verbatim while title-casing it on hyphen boundaries
when one is; in particular on the two concrete examples from the spec. -/
theorem formatKeyAndTitle_spec :
    formatKeyAndTitle ⟨strC "number", strC "Sticker Sheet Amount", [], [], false⟩ =
      (strC "sticker sheet amount", strC "StickerSheetAmount") ∧
    formatKeyAndTitle ⟨strC "input", strC "The rabbit boat but backwards", [],
        strC "access-token", false⟩ =
      (strC "access-token", strC "AccessToken") ∧
    (∀ v : GenValue, v.key = [] →
      formatKeyAndTitle v = (goToLower v.title, replaceAllChar ' ' [] (goTitle v.title))) ∧
    (∀ v : GenValue, v.key ≠ [] →
      formatKeyAndTitle v =
        (v.key, replaceAllChar ' ' [] (goTitle (replaceAllChar '-' (strC " ") v.key)))) := by
  refine ⟨by decide, by decide, ?_, ?_⟩
  · intro v hv
    simp [formatKeyAndTitle, hv]
  · intro v hv
    have : 0 < v.key.length := List.length_pos.mpr hv
    simp [formatKeyAndTitle, this]

/-- Witness for C5's conditional parts at concrete directives. -/
theorem formatKeyAndTitle_spec_witness :
    formatKeyAndTitle ⟨strC "input", strC "Name", [], [], false⟩ =
      (goToLower (strC "Name"), replaceAllChar ' ' [] (goTitle (strC "Name"))) :=
  formatKeyAndTitle_spec.2.2.1 ⟨strC "input", strC "Name", [], [], false⟩ rfl

/-! ## Claim C8: missing input flag -/

/-- Claim C8 (counterexample): with no input path, `main` does print the
message and stop before any processing, but `os.Exit(0)` gives exit
status `0` - not the non-zero status the claim requires. -/
theorem runMain_missing_input_exit_code_zero :
    runMain [] (strC "irrelevant") =
      .exited 0 (strC "must pass --input <file containing form format>") := rfl

/-- Claim C8 (amended): with an empty input flag the process prints the
usage message and terminates before any processing - no file read, no
parse, no compile - but with exit status zero. -/
theorem runMain_missing_input_exits_early (fileContents : Str) :
    runMain [] fileContents =
      .exited 0 (strC "must pass --input <file containing form format>") := rfl

/-! ## Factorization of the two assembler passes -/

theorem metaStep_htmlList (st : MetaAcc) (v : GenValue) :
    (metaStep st v).htmlList = st.htmlList ++ metaFragsOf v := by
  unfold metaStep metaFragsOf
  split_ifs <;> simp

theorem metaPassFrom_htmlList (values : List GenValue) : ∀ st : MetaAcc,
    (metaPassFrom st values).htmlList = st.htmlList ++ (values.map metaFragsOf).flatten := by
  induction values with
  | nil => intro st; simp [metaPassFrom]
  | cons v rest ih =>
    intro st
    simp [metaPassFrom, ih, metaStep_htmlList, List.append_assoc]

theorem metaStep_theme_of_not_theme_tag (st : MetaAcc) (v : GenValue)
    (hbg : v.element ≠ strC "form-bg") (htc : v.element ≠ strC "form-titlecolor")
    (hfg : v.element ≠ strC "form-fg") :
    (metaStep st v).theme = st.theme := by
  unfold metaStep
  split_ifs <;> simp_all

theorem metaPassFrom_theme (values : List GenValue)
    (h : ∀ v ∈ values, v.element ≠ strC "form-bg" ∧
      v.element ≠ strC "form-titlecolor" ∧ v.element ≠ strC "form-fg") :
    ∀ st : MetaAcc, (metaPassFrom st values).theme = st.theme := by
  induction values with
  | nil => intro st; rfl
  | cons v rest ih =>
    intro st
    have hv := h v (List.mem_cons_self v rest)
    have hrest : ∀ w ∈ rest, w.element ≠ strC "form-bg" ∧
        w.element ≠ strC "form-titlecolor" ∧ w.element ≠ strC "form-fg" :=
      fun w hw => h w (List.mem_cons_of_mem v hw)
    rw [metaPassFrom, ih hrest, metaStep_theme_of_not_theme_tag st v hv.1 hv.2.1 hv.2.2]

theorem fieldStep_factor (st : GenAcc) (v : GenValue) :
    fieldStep st v = (fieldFragsOf v).map
      fun frags =>
        ⟨st.htmlList ++ frags, st.answer ++ entryListOf v, st.resParse ++ entryListOf v⟩ := by
  unfold fieldStep fieldFragsOf entryListOf
  by_cases h1 : v.element = strC "textarea"
  · simp only [if_pos h1]; rfl
  by_cases h2 : v.element = strC "input"
  · simp only [if_neg h1, if_pos h2]; rfl
  by_cases h3 : v.element = strC "hidden"
  · simp only [if_neg h1, if_neg h2, if_pos h3]; rfl
  by_cases h4 : v.element = strC "form-paragraph"
  · simp only [if_neg h1, if_neg h2, if_neg h3, if_pos h4, Except.map, List.append_nil]
  by_cases h5 : v.element = strC "email"
  · simp only [if_neg h1, if_neg h2, if_neg h3, if_neg h4, if_pos h5]; rfl
  by_cases h6 : v.element = strC "number"
  · simp only [if_neg h1, if_neg h2, if_neg h3, if_neg h4, if_neg h5, if_pos h6]
    cases hb : buildOptions v.value <;> rfl
  by_cases h7 : v.element = strC "range"
  · simp only [if_neg h1, if_neg h2, if_neg h3, if_neg h4, if_neg h5, if_neg h6, if_pos h7]
    cases hb : buildOptions v.value <;> rfl
  by_cases h8 : v.element = strC "radio"
  · simp only [if_neg h1, if_neg h2, if_neg h3, if_neg h4, if_neg h5, if_neg h6, if_neg h7,
      if_pos h8, Except.map, List.append_assoc]
  · simp only [if_neg h1, if_neg h2, if_neg h3, if_neg h4, if_neg h5, if_neg h6, if_neg h7,
      if_neg h8, Except.map, List.append_nil]

theorem fieldPass_factor (values : List GenValue) : ∀ st st' : GenAcc,
    fieldPass st values = .ok st' →
    ∃ frs, mapExcept fieldFragsOf values = .ok frs ∧
      st'.htmlList = st.htmlList ++ frs.flatten ∧
      st'.answer = st.answer ++ (values.map entryListOf).flatten ∧
      st'.resParse = st.resParse ++ (values.map entryListOf).flatten := by
  induction values with
  | nil =>
    intro st st' h
    rw [fieldPass] at h
    cases h
    exact ⟨[], rfl, by simp, by simp, by simp⟩
  | cons v rest ih =>
    intro st st' h
    rw [fieldPass, fieldStep_factor] at h
    cases hf : fieldFragsOf v with
    | error e => rw [hf] at h; exact absurd h (by simp [Except.map])
    | ok frags =>
      rw [hf] at h
      simp only [Except.map] at h
      obtain ⟨frs, hm, hh, ha, hr⟩ := ih _ st' h
      refine ⟨frags :: frs, ?_, ?_, ?_, ?_⟩
      · rw [mapExcept, hf, hm]
      · simpa [List.append_assoc] using hh
      · simpa [List.append_assoc] using ha
      · simpa [List.append_assoc] using hr

/-! ## Claim C6: the three artifacts are order-preserving projections -/

/-- Claim C6: whenever the field pass finishes, the answer-structure
entries and the extraction-statement entries are one and the same
projection of the directive sequence (`entryListOf`, one entry per
field-kind directive, in input order), and the appended HTML fragments
are the concatenation, in input order, of each directive's own fragment
list - all three outputs are projections of the single ordered
directive sequence. -/
theorem fieldPass_projections (values : List GenValue) (st st' : GenAcc)
    (h : fieldPass st values = .ok st') :
    ∃ frs, mapExcept fieldFragsOf values = .ok frs ∧
      st'.htmlList = st.htmlList ++ frs.flatten ∧
      st'.answer = st.answer ++ (values.map entryListOf).flatten ∧
      st'.resParse = st.resParse ++ (values.map entryListOf).flatten :=
  fieldPass_factor values st st' h

/-- Witness for C6 on the concrete sequence `input[Name]`, `form-desc`,
`radio[Size]`: the field pass succeeds and decomposes as stated. -/
theorem fieldPass_projections_witness :
    ∃ st', fieldPass (⟨[], [], []⟩ : GenAcc)
        [⟨strC "input", strC "Name", strC "hi", [], false⟩,
         ⟨strC "form-desc", [], strC "welcome", [], false⟩,
         ⟨strC "radio", strC "Size", strC "S, M", [], false⟩] = .ok st' ∧
      ∃ frs, mapExcept fieldFragsOf
          [⟨strC "input", strC "Name", strC "hi", [], false⟩,
           ⟨strC "form-desc", [], strC "welcome", [], false⟩,
           ⟨strC "radio", strC "Size", strC "S, M", [], false⟩] = .ok frs ∧
        st'.htmlList = (⟨[], [], []⟩ : GenAcc).htmlList ++ frs.flatten ∧
        st'.answer = (⟨[], [], []⟩ : GenAcc).answer ++
          ([⟨strC "input", strC "Name", strC "hi", [], false⟩,
            ⟨strC "form-desc", [], strC "welcome", [], false⟩,
            ⟨strC "radio", strC "Size", strC "S, M", [], false⟩].map entryListOf).flatten ∧
        st'.resParse = (⟨[], [], []⟩ : GenAcc).resParse ++
          ([⟨strC "input", strC "Name", strC "hi", [], false⟩,
            ⟨strC "form-desc", [], strC "welcome", [], false⟩,
            ⟨strC "radio", strC "Size", strC "S, M", [], false⟩].map entryListOf).flatten :=
  ⟨_, rfl, fieldPass_projections _ _ _ rfl⟩

/-! ## Claim C10: overall page-body structure -/

/-- Claim C10: for every input that compiles (including one with zero
field-kind directives), the assembled body fragment list is the
metadata fragments (title heading, description, image), then the form
open tag, then the field fragments in directive order, then the submit
fragment and the `</form>` closing tag. -/
theorem compile_htmlList_structure (format : Str) (values : List GenValue) (out : CompileOut)
    (hp : parseFormat format = .ok values) (hc : compile format = .ok out) :
    ∃ frs, mapExcept fieldFragsOf values = .ok frs ∧
      out.htmlList = (values.map metaFragsOf).flatten ++ [formOpenTag] ++ frs.flatten ++
        [submitFrag, strC "</form>"] := by
  simp only [compile, hp] at hc
  cases hf : fieldPass ⟨(metaPass values).htmlList ++ [formOpenTag], [], []⟩ values with
  | error e => rw [hf] at hc; exact Except.noConfusion hc
  | ok g =>
    rw [hf] at hc
    dsimp only at hc
    injection hc with hc'
    subst hc'
    obtain ⟨frs, hm, hh, -, -⟩ := fieldPass_factor values _ g hf
    refine ⟨frs, hm, ?_⟩
    show g.htmlList ++ [submitFrag, strC "</form>"] = _
    rw [hh]
    show (metaPass values).htmlList ++ [formOpenTag] ++ frs.flatten ++ _ = _
    rw [metaPass, metaPassFrom_htmlList]
    simp [metaInit, List.append_assoc]

/-- Witness for C10 at the concrete input `form-title = Hi`. -/
theorem compile_htmlList_structure_witness :
    ∃ out, compile (strC "form-title = Hi") = .ok out ∧
      ∃ frs, mapExcept fieldFragsOf [⟨strC "form-title", [], strC "Hi", [], false⟩] = .ok frs ∧
        out.htmlList = ([⟨strC "form-title", [], strC "Hi", [], false⟩].map metaFragsOf).flatten ++
          [formOpenTag] ++ frs.flatten ++ [submitFrag, strC "</form>"] :=
  ⟨_, rfl, compile_htmlList_structure (strC "form-title = Hi")
    [⟨strC "form-title", [], strC "Hi", [], false⟩] _ rfl rfl⟩

/-! ## Claim C9: the reused buffer duplicates the stylesheet -/

theorem hasSub_renderIndexDoc (style t c : Str) :
    hasSub style (renderIndexDoc style t c) = true := by
  have h := hasSub_of_parts style
    (strC "<!DOCTYPE html>\n<html>\n\t<head>\n\t\t<title>" ++ htmlEscape t ++
      strC "</title>\n\t\t")
    (strC "\n\t</head>\n\t<body>\n\t" ++ c ++ strC "\n\t</body>\n</html>")
  simpa [renderIndexDoc, List.append_assoc] using h

/-- Claim C9: the bytes written to `index-template.html` are the
rendered stylesheet fragment followed by the rendered document, the
document begins with `<!DOCTYPE html>`, and the stylesheet occurs
again inside the document (substituted into its head) - so the
stylesheet content appears twice in the output file. -/
theorem compile_indexBytes_duplicated_stylesheet (format : Str) (out : CompileOut)
    (hc : compile format = .ok out) :
    out.indexBytes.take out.styleRendered.length = out.styleRendered ∧
    leadsWith (strC "<!DOCTYPE html>") (out.indexBytes.drop out.styleRendered.length) = true ∧
    hasSub out.styleRendered (out.indexBytes.drop out.styleRendered.length) = true := by
  cases hp : parseFormat format with
  | error e => rw [compile, hp] at hc; exact Except.noConfusion hc
  | ok values =>
    simp only [compile, hp] at hc
    cases hf : fieldPass ⟨(metaPass values).htmlList ++ [formOpenTag], [], []⟩ values with
    | error e => rw [hf] at hc; exact Except.noConfusion hc
    | ok g =>
      rw [hf] at hc
      dsimp only at hc
      injection hc with hc'
      subst hc'
      dsimp only
      rw [List.take_left, List.drop_left]
      refine ⟨rfl, ?_, hasSub_renderIndexDoc _ _ _⟩
      have hsplit : strC "<!DOCTYPE html>\n<html>\n\t<head>\n\t\t<title>" =
          strC "<!DOCTYPE html>" ++ strC "\n<html>\n\t<head>\n\t\t<title>" := by decide
      rw [renderIndexDoc, hsplit]
      simp only [List.append_assoc]
      exact leadsWith_append _ _

/-- Witness for C9 at the concrete input `form-title = Hi`. -/
theorem compile_indexBytes_duplicated_stylesheet_witness :
    ∃ out, compile (strC "form-title = Hi") = .ok out ∧
      (out.indexBytes.take out.styleRendered.length = out.styleRendered ∧
       leadsWith (strC "<!DOCTYPE html>") (out.indexBytes.drop out.styleRendered.length) = true ∧
       hasSub out.styleRendered (out.indexBytes.drop out.styleRendered.length) = true) :=
  ⟨_, rfl, compile_indexBytes_duplicated_stylesheet (strC "form-title = Hi") _ rfl⟩

/-! ## Claim C2: theme fallback renders empty declarations, not defaults -/

/-- Claim C2 (counterexample): the empty input contains no `form-bg`,
`form-titlecolor` or `form-fg` directive, yet the rendered stylesheet is
the template rendered with three empty strings and contains the empty
color declarations `background: ;` and `color: ;` - there are no
built-in default color values in the template at all. -/
theorem compile_empty_theme_renders_empty_declarations :
    (compile (strC "")).map (fun o => o.styleRendered) =
      .ok (renderStylesheet ⟨[], [], []⟩) ∧
    hasSub (strC "background: ;") (renderStylesheet ⟨[], [], []⟩) = true ∧
    hasSub (strC "color: ;") (renderStylesheet ⟨[], [], []⟩) = true :=
  ⟨rfl, by decide, by decide⟩

/-- Claim C2 (amended): for every input with no theme directive, the
rendered stylesheet is the built-in template rendered with three empty
strings - the guarded theme assignments leave the zero-value empty
string in place - so it contains the empty declarations
`background: ;` and `color: ;` rather than any built-in default color
values. -/
theorem compile_theme_fallback (format : Str) (values : List GenValue) (out : CompileOut)
    (hp : parseFormat format = .ok values)
    (hth : ∀ v ∈ values, v.element ≠ strC "form-bg" ∧
      v.element ≠ strC "form-titlecolor" ∧ v.element ≠ strC "form-fg")
    (hc : compile format = .ok out) :
    out.styleRendered = renderStylesheet ⟨[], [], []⟩ ∧
    hasSub (strC "background: ;") out.styleRendered = true ∧
    hasSub (strC "color: ;") out.styleRendered = true := by
  simp only [compile, hp] at hc
  cases hf : fieldPass ⟨(metaPass values).htmlList ++ [formOpenTag], [], []⟩ values with
  | error e => rw [hf] at hc; exact Except.noConfusion hc
  | ok g =>
    rw [hf] at hc
    dsimp only at hc
    injection hc with hc'
    subst hc'
    have htheme : (metaPass values).theme = ⟨[], [], []⟩ := by
      have h := metaPassFrom_theme values hth metaInit
      simpa [metaPass, metaInit] using h
    have hsd : styleDataOf (⟨[], [], []⟩ : Theme) = ⟨[], [], []⟩ := rfl
    dsimp only
    rw [metaPass] at htheme ⊢
    rw [htheme, hsd]
    exact ⟨rfl, by decide, by decide⟩

/-- Witness for C2's amended theorem at the empty input. -/
theorem compile_theme_fallback_witness :
    ∃ out, compile (strC "") = .ok out ∧
      (out.styleRendered = renderStylesheet ⟨[], [], []⟩ ∧
       hasSub (strC "background: ;") out.styleRendered = true ∧
       hasSub (strC "color: ;") out.styleRendered = true) :=
  ⟨_, rfl, compile_theme_fallback (strC "") [] _ rfl (by simp) rfl⟩

/-! ## Claim C4: number/range attribute pairs -/

/-- What one trimmed comma-piece contributes to the attribute string:
the first two `=`-segments as `attr="val" ` (anything after a second `=`
is dropped), or nothing for the (panicking) no-`=` shape. -/
def pairAttr (p : Str) : Str :=
  match splitOnChar '=' p with
  | p0 :: p1 :: _ => p0 ++ strC "=\"" ++ p1 ++ strC "\" "
  | _ => []

theorem splitOnChar_ne_nil (sep : Char) (s : Str) : splitOnChar sep s ≠ [] := by
  cases s with
  | nil => simp [splitOnChar]
  | cons c cs =>
    unfold splitOnChar
    cases h : splitOnChar sep cs with
    | nil => split_ifs <;> simp
    | cons hd tl => split_ifs <;> simp

theorem splitOnChar_of_not_mem (sep : Char) (s : Str) (h : sep ∉ s) :
    splitOnChar sep s = [s] := by
  induction s with
  | nil => rfl
  | cons c cs ih =>
    have hc : ¬ c = sep := fun he => h (he ▸ List.mem_cons_self c cs)
    have hcs : sep ∉ cs := fun hm => h (List.mem_cons_of_mem c hm)
    unfold splitOnChar
    rw [ih hcs]
    simp [hc]

theorem splitOnChar_two_of_mem (sep : Char) (s : Str) (h : sep ∈ s) :
    ∃ p0 p1 rest, splitOnChar sep s = p0 :: p1 :: rest := by
  induction s with
  | nil => cases h
  | cons c cs ih =>
    by_cases hc : c = sep
    · cases hs : splitOnChar sep cs with
      | nil => exact absurd hs (splitOnChar_ne_nil sep cs)
      | cons hd tl =>
        exact ⟨[], hd, tl, by unfold splitOnChar; rw [hs]; simp [hc]⟩
    · have hm : sep ∈ cs := by
        cases List.mem_cons.mp h with
        | inl he => exact absurd he.symm hc
        | inr hm => exact hm
      obtain ⟨p0, p1, rest, hsp⟩ := ih hm
      exact ⟨c :: p0, p1, rest, by unfold splitOnChar; rw [hsp]; simp [hc]⟩

theorem buildOptionsFrom_ok (pieces : List Str) : ∀ acc : Str,
    (∀ p ∈ pieces, '=' ∈ trimSpace p) →
    buildOptionsFrom acc pieces =
      .ok (acc ++ (pieces.map fun p => pairAttr (trimSpace p)).flatten) := by
  induction pieces with
  | nil => intro acc _; simp [buildOptionsFrom]
  | cons piece rest ih =>
    intro acc h
    have hp := h piece (List.mem_cons_self piece rest)
    obtain ⟨p0, p1, tail, hsp⟩ := splitOnChar_two_of_mem '=' (trimSpace piece) hp
    have hrest : ∀ p ∈ rest, '=' ∈ trimSpace p :=
      fun p hm => h p (List.mem_cons_of_mem piece hm)
    rw [buildOptionsFrom, hsp]
    dsimp only
    rw [ih _ hrest]
    have hpa : pairAttr (trimSpace piece) = p0 ++ strC "=\"" ++ p1 ++ strC "\" " := by
      rw [pairAttr, hsp]
    simp [hpa, List.append_assoc]

theorem buildOptionsFrom_err (pieces : List Str) : ∀ acc : Str,
    (∃ p ∈ pieces, '=' ∉ trimSpace p) →
    buildOptionsFrom acc pieces = .error .indexOutOfRange := by
  induction pieces with
  | nil => intro acc h; simp at h
  | cons piece rest ih =>
    intro acc h
    by_cases hp : '=' ∈ trimSpace piece
    · obtain ⟨p0, p1, tail, hsp⟩ := splitOnChar_two_of_mem '=' (trimSpace piece) hp
      obtain ⟨q, hq, hqn⟩ := h
      have hq' : q ∈ rest := by
        cases List.mem_cons.mp hq with
        | inl he => exact absurd (he ▸ hp) hqn
        | inr hm => exact hm
      rw [buildOptionsFrom, hsp]
      dsimp only
      exact ih _ ⟨q, hq', hqn⟩
    · rw [buildOptionsFrom, splitOnChar_of_not_mem '=' (trimSpace piece) hp]

/-- Claim C4 (counterexample): the directive `number[N] = min` has a
comma-piece with no `=`, and the compiler panics (`parts[1]` is out of
range) instead of propagating the malformed pair as a literal HTML
attribute. -/
theorem number_malformed_pair_panics :
    compile (strC "number[N] = min") = .error .indexOutOfRange ∧
    buildOptions (strC "min") = .error .indexOutOfRange := ⟨rfl, rfl⟩

/-- Claim C4 (amended): a `number`/`range` value is split on commas and
each trimmed pair is split on `=`; when every pair contains an `=`, the
first two segments of each pair are emitted verbatim as `attr="val" `
with no validation (segments after a second `=` are dropped), in pair
order; a pair with no `=` makes the compiler panic instead. -/
theorem buildOptions_spec (value : Str) :
    ((∀ p ∈ splitOnChar ',' value, '=' ∈ trimSpace p) →
      buildOptions value =
        .ok (((splitOnChar ',' value).map fun p => pairAttr (trimSpace p)).flatten)) ∧
    ((∃ p ∈ splitOnChar ',' value, '=' ∉ trimSpace p) →
      buildOptions value = .error .indexOutOfRange) := by
  constructor
  · intro h
    have := buildOptionsFrom_ok (splitOnChar ',' value) [] h
    simpa [buildOptions] using this
  · intro h
    exact buildOptionsFrom_err (splitOnChar ',' value) [] h

/-- Witness for C4's amended theorem at the value `min=1, max=5`. -/
theorem buildOptions_spec_witness :
    (∀ p ∈ splitOnChar ',' (strC "min=1, max=5"), '=' ∈ trimSpace p) ∧
    buildOptions (strC "min=1, max=5") =
      .ok (((splitOnChar ',' (strC "min=1, max=5")).map fun p => pairAttr (trimSpace p)).flatten) :=
  ⟨by decide, (buildOptions_spec (strC "min=1, max=5")).1 (by decide)⟩

/-! ## Claim C3: the required flag -/

/-- The literal text on either side of the `required`-marker slot in
the `<input>`/`<textarea>` fragment of each non-radio field kind: the
fragment is `pre ++ requiredStr required ++ suf`, `pre` ends in a space
and `suf` begins with one. The `radio` case has no such slot. -/
def elMarkerSplit (input : GenValue) : Option (Str × Str) :=
  if input.element = strC "textarea" then
    some (strC "<textarea ",
      strC " placeholder=\"" ++ input.value ++ strC "\" name=\"" ++
        (formatKeyAndTitle input).1 ++ strC "\"></textarea>")
  else if input.element = strC "input" then
    some (strC "<input type=\"text\" ",
      strC " placeholder=\"" ++ input.value ++ strC "\" name=\"" ++
        (formatKeyAndTitle input).1 ++ strC "\"/>")
  else if input.element = strC "hidden" then
    some (strC "<input type=\"hidden\" ",
      strC " value=\"" ++ input.value ++ strC "\" name=\"" ++
        (formatKeyAndTitle input).1 ++ strC "\"/>")
  else if input.element = strC "email" then
    some (strC "<input type=\"email\" ",
      strC " placeholder=\"email@provider.tld\" pattern=\"" ++ input.value ++
        strC "\", name=\"" ++ (formatKeyAndTitle input).1 ++ strC "\"/>")
  else if input.element = strC "number" then
    match buildOptions input.value with
    | .ok options =>
      some (strC "<input type=\"number\" ",
        strC " " ++ options ++ strC " name=\"" ++ (formatKeyAndTitle input).1 ++ strC "\"/>")
    | .error _ => none
  else if input.element = strC "range" then
    match buildOptions input.value with
    | .ok options =>
      some (strC "<input type=\"range\" ",
        strC " " ++ options ++ strC " name=\"" ++ (formatKeyAndTitle input).1 ++ strC "\"/>")
    | .error _ => none
  else none

theorem marker_in_splice (a b : Str) :
    hasSub (strC " required ") (a ++ (strC " " ++ (strC "required" ++ (strC " " ++ b)))) =
      true := by
  have e : a ++ (strC " " ++ (strC "required" ++ (strC " " ++ b))) =
      a ++ strC " required " ++ b := by
    have e2 : strC " required " = strC " " ++ strC "required" ++ strC " " := by decide
    rw [e2]
    simp [List.append_assoc]
  rw [e]
  exact hasSub_of_parts _ a b

/-- Claim C3 (counterexample): the line `!radio[Size] = Small, Medium`
parses to a `radio` directive with `required = true`, yet none of the
HTML fragments the radio case emits contains the string `required` -
the radio branch ignores the flag. -/
theorem radio_required_no_marker :
    parseLine (strC "!radio[Size] = Small, Medium") =
      .ok ⟨strC "radio", strC "Size", strC "Small, Medium", [], true⟩ ∧
    ((fieldStep ⟨[], [], []⟩ ⟨strC "radio", strC "Size", strC "Small, Medium", [], true⟩).map
      fun st => st.htmlList.all fun f => ! hasSub (strC "required") f) = .ok true :=
  ⟨rfl, rfl⟩

/-- Claim C3 (amended): for the six kinds `input`, `textarea`,
`hidden`, `email`, `number`, `range` the emitted input fragment is
`pre ++ requiredStr required ++ suf` with a space on each side of the
slot, so a true flag puts the ` required ` marker in the fragment and a
false flag fills the slot with the empty string; the `radio` case
ignores the flag entirely (its fragments have no marker slot); and in
every case the flag has no effect on the generated answer-structure
field or extraction statement. -/
theorem required_flag_propagation :
    (∀ (v : GenValue) (st st' : GenAcc),
      (v.element = strC "input" ∨ v.element = strC "textarea" ∨ v.element = strC "hidden" ∨
       v.element = strC "email" ∨ v.element = strC "number" ∨ v.element = strC "range") →
      fieldStep st v = .ok st' →
      ∃ pre suf, elMarkerSplit v = some (pre, suf) ∧
        (pre ++ requiredStr v.required ++ suf) ∈ st'.htmlList ∧
        (v.required = true →
          hasSub (strC " required ") (pre ++ requiredStr v.required ++ suf) = true)) ∧
    (∀ (v : GenValue) (st : GenAcc) (b : Bool),
      v.element = strC "radio" → fieldStep st { v with required := b } = fieldStep st v) ∧
    (∀ (v : GenValue) (st : GenAcc) (b : Bool),
      (fieldStep st { v with required := b }).map (fun s => (s.answer, s.resParse)) =
        (fieldStep st v).map fun s => (s.answer, s.resParse)) := by
  refine ⟨?_, ?_, ?_⟩
  · intro v st st' hel h
    rw [fieldStep_factor] at h
    cases hff : fieldFragsOf v with
    | error e => rw [hff] at h; exact Except.noConfusion h
    | ok frags =>
      rw [hff] at h
      dsimp only [Except.map] at h
      injection h with h'
      subst h'
      dsimp only
      have hreq : requiredStr true = strC "required" := rfl
      rcases hel with h1 | h1 | h1 | h1 | h1 | h1
      · -- input
        have nt : v.element ≠ strC "textarea" := by rw [h1]; decide
        simp only [fieldFragsOf] at hff
        rw [if_neg nt, if_pos h1] at hff
        injection hff with hff'
        subst hff'
        refine ⟨strC "<input type=\"text\" ",
          strC " placeholder=\"" ++ v.value ++ strC "\" name=\"" ++
            (formatKeyAndTitle v).1 ++ strC "\"/>", ?_, ?_, ?_⟩
        · simp only [elMarkerSplit]
          rw [if_neg nt, if_pos h1]
        · simp [List.mem_append, List.mem_cons, List.append_assoc]
        · intro hr
          rw [hr, hreq]
          have e1 : strC "<input type=\"text\" " = strC "<input type=\"text\"" ++ strC " " := by
            decide
          have e2 : strC " placeholder=\"" = strC " " ++ strC "placeholder=\"" := by decide
          rw [e1, e2]
          have h3 := marker_in_splice (strC "<input type=\"text\"")
            (strC "placeholder=\"" ++ v.value ++ strC "\" name=\"" ++
              (formatKeyAndTitle v).1 ++ strC "\"/>")
          simpa [List.append_assoc] using h3
      · -- textarea
        simp only [fieldFragsOf] at hff
        rw [if_pos h1] at hff
        injection hff with hff'
        subst hff'
        refine ⟨strC "<textarea ",
          strC " placeholder=\"" ++ v.value ++ strC "\" name=\"" ++
            (formatKeyAndTitle v).1 ++ strC "\"></textarea>", ?_, ?_, ?_⟩
        · simp only [elMarkerSplit]
          rw [if_pos h1]
        · simp [List.mem_append, List.mem_cons, List.append_assoc]
        · intro hr
          rw [hr, hreq]
          have e1 : strC "<textarea " = strC "<textarea" ++ strC " " := by decide
          have e2 : strC " placeholder=\"" = strC " " ++ strC "placeholder=\"" := by decide
          rw [e1, e2]
          have h3 := marker_in_splice (strC "<textarea")
            (strC "placeholder=\"" ++ v.value ++ strC "\" name=\"" ++
              (formatKeyAndTitle v).1 ++ strC "\"></textarea>")
          simpa [List.append_assoc] using h3
      · -- hidden
        have nt : v.element ≠ strC "textarea" := by rw [h1]; decide
        have ni : v.element ≠ strC "input" := by rw [h1]; decide
        simp only [fieldFragsOf] at hff
        rw [if_neg nt, if_neg ni, if_pos h1] at hff
        injection hff with hff'
        subst hff'
        refine ⟨strC "<input type=\"hidden\" ",
          strC " value=\"" ++ v.value ++ strC "\" name=\"" ++
            (formatKeyAndTitle v).1 ++ strC "\"/>", ?_, ?_, ?_⟩
        · simp only [elMarkerSplit]
          rw [if_neg nt, if_neg ni, if_pos h1]
        · simp [List.mem_append, List.mem_cons, List.append_assoc]
        · intro hr
          rw [hr, hreq]
          have e1 : strC "<input type=\"hidden\" " =
              strC "<input type=\"hidden\"" ++ strC " " := by decide
          have e2 : strC " value=\"" = strC " " ++ strC "value=\"" := by decide
          rw [e1, e2]
          have h3 := marker_in_splice (strC "<input type=\"hidden\"")
            (strC "value=\"" ++ v.value ++ strC "\" name=\"" ++
              (formatKeyAndTitle v).1 ++ strC "\"/>")
          simpa [List.append_assoc] using h3
      · -- email
        have nt : v.element ≠ strC "textarea" := by rw [h1]; decide
        have ni : v.element ≠ strC "input" := by rw [h1]; decide
        have nh : v.element ≠ strC "hidden" := by rw [h1]; decide
        have np : v.element ≠ strC "form-paragraph" := by rw [h1]; decide
        simp only [fieldFragsOf] at hff
        rw [if_neg nt, if_neg ni, if_neg nh, if_neg np, if_pos h1] at hff
        injection hff with hff'
        subst hff'
        refine ⟨strC "<input type=\"email\" ",
          strC " placeholder=\"email@provider.tld\" pattern=\"" ++ v.value ++
            strC "\", name=\"" ++ (formatKeyAndTitle v).1 ++ strC "\"/>", ?_, ?_, ?_⟩
        · simp only [elMarkerSplit]
          rw [if_neg nt, if_neg ni, if_neg nh, if_pos h1]
        · simp [List.mem_append, List.mem_cons, List.append_assoc]
        · intro hr
          rw [hr, hreq]
          have e1 : strC "<input type=\"email\" " =
              strC "<input type=\"email\"" ++ strC " " := by decide
          have e2 : strC " placeholder=\"email@provider.tld\" pattern=\"" =
              strC " " ++ strC "placeholder=\"email@provider.tld\" pattern=\"" := by decide
          rw [e1, e2]
          have h3 := marker_in_splice (strC "<input type=\"email\"")
            (strC "placeholder=\"email@provider.tld\" pattern=\"" ++ v.value ++
              strC "\", name=\"" ++ (formatKeyAndTitle v).1 ++ strC "\"/>")
          simpa [List.append_assoc] using h3
      · -- number
        have nt : v.element ≠ strC "textarea" := by rw [h1]; decide
        have ni : v.element ≠ strC "input" := by rw [h1]; decide
        have nh : v.element ≠ strC "hidden" := by rw [h1]; decide
        have np : v.element ≠ strC "form-paragraph" := by rw [h1]; decide
        have ne' : v.element ≠ strC "email" := by rw [h1]; decide
        simp only [fieldFragsOf] at hff
        rw [if_neg nt, if_neg ni, if_neg nh, if_neg np, if_neg ne', if_pos h1] at hff
        cases hb : buildOptions v.value with
        | error e =>
          rw [hb] at hff
          dsimp only at hff
          exact Except.noConfusion hff
        | ok options =>
          rw [hb] at hff
          dsimp only at hff
          injection hff with hff'
          subst hff'
          refine ⟨strC "<input type=\"number\" ",
            strC " " ++ options ++ strC " name=\"" ++
              (formatKeyAndTitle v).1 ++ strC "\"/>", ?_, ?_, ?_⟩
          · simp only [elMarkerSplit]
            rw [if_neg nt, if_neg ni, if_neg nh, if_neg ne', if_pos h1, hb]
          · simp [List.mem_append, List.mem_cons, List.append_assoc]
          · intro hr
            rw [hr, hreq]
            have e1 : strC "<input type=\"number\" " =
                strC "<input type=\"number\"" ++ strC " " := by decide
            rw [e1]
            have h3 := marker_in_splice (strC "<input type=\"number\"")
              (options ++ strC " name=\"" ++ (formatKeyAndTitle v).1 ++ strC "\"/>")
            simpa [List.append_assoc] using h3
      · -- range
        have nt : v.element ≠ strC "textarea" := by rw [h1]; decide
        have ni : v.element ≠ strC "input" := by rw [h1]; decide
        have nh : v.element ≠ strC "hidden" := by rw [h1]; decide
        have np : v.element ≠ strC "form-paragraph" := by rw [h1]; decide
        have ne' : v.element ≠ strC "email" := by rw [h1]; decide
        have nn : v.element ≠ strC "number" := by rw [h1]; decide
        simp only [fieldFragsOf] at hff
        rw [if_neg nt, if_neg ni, if_neg nh, if_neg np, if_neg ne', if_neg nn, if_pos h1] at hff
        cases hb : buildOptions v.value with
        | error e =>
          rw [hb] at hff
          dsimp only at hff
          exact Except.noConfusion hff
        | ok options =>
          rw [hb] at hff
          dsimp only at hff
          injection hff with hff'
          subst hff'
          refine ⟨strC "<input type=\"range\" ",
            strC " " ++ options ++ strC " name=\"" ++
              (formatKeyAndTitle v).1 ++ strC "\"/>", ?_, ?_, ?_⟩
          · simp only [elMarkerSplit]
            rw [if_neg nt, if_neg ni, if_neg nh, if_neg ne', if_neg nn, if_pos h1, hb]
          · simp [List.mem_append, List.mem_cons, List.append_assoc]
          · intro hr
            rw [hr, hreq]
            have e1 : strC "<input type=\"range\" " =
                strC "<input type=\"range\"" ++ strC " " := by decide
            rw [e1]
            have h3 := marker_in_splice (strC "<input type=\"range\"")
              (options ++ strC " name=\"" ++ (formatKeyAndTitle v).1 ++ strC "\"/>")
            simpa [List.append_assoc] using h3
  · intro v st b h1
    have nt : v.element ≠ strC "textarea" := by rw [h1]; decide
    have ni : v.element ≠ strC "input" := by rw [h1]; decide
    have nh : v.element ≠ strC "hidden" := by rw [h1]; decide
    have np : v.element ≠ strC "form-paragraph" := by rw [h1]; decide
    have ne' : v.element ≠ strC "email" := by rw [h1]; decide
    have nn : v.element ≠ strC "number" := by rw [h1]; decide
    have nr : v.element ≠ strC "range" := by rw [h1]; decide
    simp only [fieldStep]
    simp only [if_neg nt, if_neg ni, if_neg nh, if_neg np, if_neg ne', if_neg nn, if_neg nr,
      if_pos h1]
    rfl
  · intro v st b
    simp only [fieldStep]
    by_cases h1 : v.element = strC "textarea"
    · simp only [if_pos h1]; rfl
    by_cases h2 : v.element = strC "input"
    · simp only [if_neg h1, if_pos h2]; rfl
    by_cases h3 : v.element = strC "hidden"
    · simp only [if_neg h1, if_neg h2, if_pos h3]; rfl
    by_cases h4 : v.element = strC "form-paragraph"
    · simp only [if_neg h1, if_neg h2, if_neg h3, if_pos h4]
    by_cases h5 : v.element = strC "email"
    · simp only [if_neg h1, if_neg h2, if_neg h3, if_neg h4, if_pos h5]; rfl
    by_cases h6 : v.element = strC "number"
    · simp only [if_neg h1, if_neg h2, if_neg h3, if_neg h4, if_neg h5, if_pos h6]
      cases hb : buildOptions v.value <;> rfl
    by_cases h7 : v.element = strC "range"
    · simp only [if_neg h1, if_neg h2, if_neg h3, if_neg h4, if_neg h5, if_neg h6, if_pos h7]
      cases hb : buildOptions v.value <;> rfl
    by_cases h8 : v.element = strC "radio"
    · simp only [if_neg h1, if_neg h2, if_neg h3, if_neg h4, if_neg h5, if_neg h6, if_neg h7,
        if_pos h8]
      rfl
    · simp only [if_neg h1, if_neg h2, if_neg h3, if_neg h4, if_neg h5, if_neg h6, if_neg h7,
        if_neg h8]

/-- Witness for C3's amended theorem: a required `input` directive at
the empty accumulator has the ` required ` marker in its fragment. -/
theorem required_flag_propagation_witness :
    ∃ st', fieldStep (⟨[], [], []⟩ : GenAcc)
        ⟨strC "input", strC "Name", strC "hi", [], true⟩ = .ok st' ∧
      ∃ pre suf, elMarkerSplit ⟨strC "input", strC "Name", strC "hi", [], true⟩ =
          some (pre, suf) ∧
        (pre ++ requiredStr true ++ suf) ∈ st'.htmlList ∧
        (true = true → hasSub (strC " required ") (pre ++ requiredStr true ++ suf) = true) :=
  ⟨_, rfl, required_flag_propagation.1 ⟨strC "input", strC "Name", strC "hi", [], true⟩
    ⟨[], [], []⟩ _ (Or.inl rfl) rfl⟩

end Mould
